import Mathlib

/-!
Verification of the `sftp-go` two-stage concurrent transfer pipeline
(`src/main.go`, `src/main_test.go`).

The pipeline `(PipelineCfg).TransferFiles` spawns a feeder goroutine that
pushes every job onto `jobsChan` (capacity `len(jobs)`) and closes it,
`cfg.SFTPReaders` fetch workers that drain `jobsChan`, fetch each file
through the SFTP capability and push successes onto `resultsChan`
(capacity `cfg.BufferSize`), a sentinel goroutine that waits for all fetch
workers and closes `resultsChan`, and `cfg.Workers` process workers that
drain `resultsChan`, apply the caller's `processFunc`, and atomically bump
the `failed` / `transferred` counters.  The call returns when all process
workers have exited.

We embed this as a small-step state machine.  Channels are FIFO queues
with a capacity and a closed flag; the symmetric worker pools are
represented by counts of workers in each local state (a fetch worker is
either idle/receiving, holding a fetched result it is trying to send, or
exited; a process worker is idle/receiving or exited).  A scheduler is an
explicit list of actions; every claim about the returned counters is
proved for every schedule under which the call returns.

Modelling notes, justified against the source:
* `*sftp.Client` is an external collaborator; per the spec it is treated
  as an opaque capability `Open : path → file-or-error`, and `io.ReadAll`
  on the returned handle yields bytes-or-error (`SFTPFile.readAll`).
  `f.Close()` releases the OS handle and has no effect on pipeline state,
  so it is not modelled.  Bytes are modelled as naturals.
* The caller-supplied `processFunc` returns a Go `error`; we model it as
  `FileResult → Option String` (`some` = non-nil error).  Capabilities
  are pure functions, matching the spec's deterministic test doubles.
* The `transferred` / `failed` counters are Go `int32` atomics; each is
  incremented at most `len(jobs)` times, so we model them as `Nat`.
* A send on a buffered channel with a blocked receiver hands the value
  over directly; action `readerHandoff` models this rendezvous (it is the
  composition of a send and a receive, and is the only way a send
  completes when `BufferSize = 0`).  A negative `BufferSize` makes
  `make(chan ...)` panic in Go; the model does not represent panics and
  the claims about the buffer are stated for positive sizes.
* Ghost fields (`fetchCalls`, `procCalls`, `processedLog`, `closeCount`)
  count capability invocations, `processFunc` invocations, the results
  handed to `processFunc`, and `close(resultsChan)` events; they record
  events without influencing the dynamics.
-/

namespace SftpGo

/-- A unit of work: one remote file to fetch (src/main.go, `FileJob`). -/
structure FileJob where
  RemotePath : String
  ID : String
deriving DecidableEq, Repr

/-- The payload produced by successfully fetching a job
(src/main.go, `FileResult`); bytes are modelled as naturals. -/
structure FileResult where
  ID : String
  Data : List Nat
deriving DecidableEq, Repr

/-- The caller-supplied processing callback (src/main.go, `ProcessFunc`):
`none` models a nil Go error (success), `some e` a non-nil error. -/
abbrev ProcessFunc : Type := FileResult → Option String

/-- An opened remote file handle; `readAll` is the outcome of
`io.ReadAll` on it (the whole byte stream, or a read error). -/
structure SFTPFile where
  readAll : Except String (List Nat)

/-- The opaque transfer capability: `sftpClient.Open(path)` yields a
readable handle or an error (spec sections 1 and 6). -/
structure SFTPClient where
  Open : String → Except String SFTPFile

/-- Pipeline configuration (src/main.go, `PipelineCfg`); the fields are
Go `int`s, so they are modelled as `Int` and may be zero or negative. -/
structure PipelineCfg where
  SFTPReaders : Int
  Workers : Int
  BufferSize : Int
deriving DecidableEq, Repr

/-- The fixed preset configuration (src/main.go, `DefaultCfg`). -/
def DefaultCfg : PipelineCfg :=
  { SFTPReaders := 80, Workers := 10, BufferSize := 10 }

/-- One scheduler choice: which enabled concurrent step runs next.
`readerSend`/`readerHandoff` identify the sending fetch worker by the
decomposition `pushing = pre ++ r :: post` of the pending-send pool. -/
inductive Action where
  | feederPush
  | feederClose
  | readerTake
  | readerExit
  | readerSend (pre : List FileResult) (r : FileResult) (post : List FileResult)
  | readerHandoff (pre : List FileResult) (r : FileResult) (post : List FileResult)
  | sentinelClose
  | procTake
  | procExit
deriving DecidableEq, Repr

/-- Global state of one `TransferFiles` run.  `feeder` is what the feeder
goroutine has not yet pushed; `jobsQ`/`jobsClosed` and
`resultsQ`/`resultsClosed` are the two channels; `idleR`/`pushing`/`doneR`
partition the fetch workers by local state (`pushing` holds, per blocked
worker, the fetched result it is waiting to send); `idleW`/`doneW`
partition the process workers; `transferred`/`failed` are the counters;
the remaining fields are ghost event records. -/
structure PipeState where
  feeder : List FileJob
  jobsQ : List FileJob
  jobsClosed : Bool
  idleR : Nat
  pushing : List FileResult
  doneR : Nat
  resultsQ : List FileResult
  resultsClosed : Bool
  idleW : Nat
  doneW : Nat
  transferred : Nat
  failed : Nat
  fetchCalls : Nat
  procCalls : Nat
  processedLog : List FileResult
  closeCount : Nat
deriving DecidableEq, Repr

/-- The state right after `TransferFiles` has created both channels and
spawned the feeder, `R` fetch workers and `W` process workers. -/
def initState (jobs : List FileJob) (R W : Nat) : PipeState :=
  { feeder := jobs
    jobsQ := []
    jobsClosed := false
    idleR := R
    pushing := []
    doneR := 0
    resultsQ := []
    resultsClosed := false
    idleW := W
    doneW := 0
    transferred := 0
    failed := 0
    fetchCalls := 0
    procCalls := 0
    processedLog := []
    closeCount := 0 }

/-- One interleaved step of the pipeline (src/main.go lines 45-92).
`R` is the number of fetch workers, `N = len(jobs)` the capacity of
`jobsChan`, `cap = cfg.BufferSize` the capacity of `resultsChan`.
Returns `none` when the chosen action is not enabled.

* `feederPush`/`feederClose`: the feeder goroutine sends the next job
  (enabled while `jobsChan` has room) and finally closes `jobsChan`.
* `readerTake`: an idle fetch worker receives a job and runs the fetch:
  `Open` error or `ReadAll` error bumps `failed` and the worker loops;
  on success it starts sending `FileResult{ID: job.ID, Data: data}`.
* `readerSend`: a sending fetch worker completes its buffered send.
* `readerHandoff`: a sending fetch worker hands its result directly to a
  blocked receiver, which immediately runs `processFunc` on it.
* `readerExit`: an idle fetch worker sees `jobsChan` closed and drained,
  leaves the range loop and runs `readWg.Done()`.
* `sentinelClose`: `readWg.Wait()` returns (all fetch workers exited)
  and the sentinel closes `resultsChan`.
* `procTake`: an idle process worker receives a result and applies
  `processFunc`, bumping `failed` or `transferred`.
* `procExit`: a process worker sees `resultsChan` closed and drained,
  leaves the range loop and runs `processWg.Done()`. -/
def step (sftpClient : SFTPClient) (processFunc : ProcessFunc) (R N chanCap : Nat) :
    Action → PipeState → Option PipeState
  | Action.feederPush, s =>
    match s.feeder with
    | [] => none
    | j :: rest =>
      if s.jobsClosed = false ∧ s.jobsQ.length < N then
        some { s with
          feeder := rest
          jobsQ := s.jobsQ ++ [j] }
      else none
  | Action.feederClose, s =>
    if s.feeder = [] ∧ s.jobsClosed = false then
      some { s with jobsClosed := true }
    else none
  | Action.readerTake, s =>
    if 1 ≤ s.idleR then
      match s.jobsQ with
      | [] => none
      | j :: rest =>
        match sftpClient.Open j.RemotePath with
        | Except.error _ =>
          some { s with
            jobsQ := rest
            failed := s.failed + 1
            fetchCalls := s.fetchCalls + 1 }
        | Except.ok f =>
          match f.readAll with
          | Except.error _ =>
            some { s with
              jobsQ := rest
              failed := s.failed + 1
              fetchCalls := s.fetchCalls + 1 }
          | Except.ok data =>
            some { s with
              jobsQ := rest
              idleR := s.idleR - 1
              pushing := s.pushing ++ [FileResult.mk j.ID data]
              fetchCalls := s.fetchCalls + 1 }
    else none
  | Action.readerExit, s =>
    if 1 ≤ s.idleR ∧ s.jobsQ = [] ∧ s.jobsClosed = true then
      some { s with
        idleR := s.idleR - 1
        doneR := s.doneR + 1 }
    else none
  | Action.readerSend pre r post, s =>
    if s.pushing = pre ++ r :: post ∧ s.resultsQ.length < chanCap then
      some { s with
        pushing := pre ++ post
        resultsQ := s.resultsQ ++ [r]
        idleR := s.idleR + 1 }
    else none
  | Action.readerHandoff pre r post, s =>
    if s.pushing = pre ++ r :: post ∧ s.resultsQ = [] ∧ 1 ≤ s.idleW then
      match processFunc r with
      | some _ =>
        some { s with
          pushing := pre ++ post
          idleR := s.idleR + 1
          failed := s.failed + 1
          procCalls := s.procCalls + 1
          processedLog := s.processedLog ++ [r] }
      | none =>
        some { s with
          pushing := pre ++ post
          idleR := s.idleR + 1
          transferred := s.transferred + 1
          procCalls := s.procCalls + 1
          processedLog := s.processedLog ++ [r] }
    else none
  | Action.sentinelClose, s =>
    if s.doneR = R ∧ s.resultsClosed = false then
      some { s with
        resultsClosed := true
        closeCount := s.closeCount + 1 }
    else none
  | Action.procTake, s =>
    if 1 ≤ s.idleW then
      match s.resultsQ with
      | [] => none
      | r :: rest =>
        match processFunc r with
        | some _ =>
          some { s with
            resultsQ := rest
            failed := s.failed + 1
            procCalls := s.procCalls + 1
            processedLog := s.processedLog ++ [r] }
        | none =>
          some { s with
            resultsQ := rest
            transferred := s.transferred + 1
            procCalls := s.procCalls + 1
            processedLog := s.processedLog ++ [r] }
    else none
  | Action.procExit, s =>
    if 1 ≤ s.idleW ∧ s.resultsQ = [] ∧ s.resultsClosed = true then
      some { s with
        idleW := s.idleW - 1
        doneW := s.doneW + 1 }
    else none

/-- Run a schedule from a state; `none` if some chosen action was not
enabled (the schedule is then not a real execution). -/
def exec (sftpClient : SFTPClient) (processFunc : ProcessFunc) (R N chanCap : Nat) :
    List Action → PipeState → Option PipeState
  | [], s => some s
  | a :: acts, s =>
    match step sftpClient processFunc R N chanCap a s with
    | none => none
    | some s' => exec sftpClient processFunc R N chanCap acts s'

/-- The state reached by running `TransferFiles` under a given schedule:
`cfg.SFTPReaders` fetch workers, `jobsChan` of capacity `len(jobs)`,
`resultsChan` of capacity `cfg.BufferSize`, `cfg.Workers` process
workers (the `for i := 0; i < n; i++` spawn loops run `max n 0` times,
i.e. `Int.toNat n`). -/
def pipeExec (cfg : PipelineCfg) (sftpClient : SFTPClient) (jobs : List FileJob)
    (processFunc : ProcessFunc) (sched : List Action) : Option PipeState :=
  exec sftpClient processFunc cfg.SFTPReaders.toNat jobs.length cfg.BufferSize.toNat
    sched (initState jobs cfg.SFTPReaders.toNat cfg.Workers.toNat)

/-- `(cfg).TransferFiles(sftpClient, jobs, processFunc)` under a given
schedule (src/main.go lines 39-99): the call returns exactly when
`processWg.Wait()` does, i.e. when all `cfg.Workers` process workers have
exited, and then yields the pair `(transferred, failed)`. -/
def PipelineCfg.TransferFiles (cfg : PipelineCfg) (sftpClient : SFTPClient)
    (jobs : List FileJob) (processFunc : ProcessFunc) (sched : List Action) :
    Option (Nat × Nat) :=
  match pipeExec cfg sftpClient jobs processFunc sched with
  | none => none
  | some s =>
    if s.doneW = cfg.Workers.toNat then some (s.transferred, s.failed) else none

/-- What the fetch stage yields for a path: `none` if `Open` or
`io.ReadAll` fails (both bump `failed` identically, src/main.go lines
58-68), otherwise the bytes read. -/
def fetchOutcome (sftpClient : SFTPClient) (path : String) : Option (List Nat) :=
  match sftpClient.Open path with
  | Except.error _ => none
  | Except.ok f =>
    match f.readAll with
    | Except.error _ => none
    | Except.ok data => some data

/-- Whether `processFunc` accepts a result (returns a nil error). -/
def resOk (processFunc : ProcessFunc) (r : FileResult) : Bool :=
  (processFunc r).isNone

/-- Whether a job ends in the `transferred` counter: its fetch succeeds
and `processFunc` accepts the resulting `FileResult`. -/
def jobSucceeds (sftpClient : SFTPClient) (processFunc : ProcessFunc)
    (j : FileJob) : Bool :=
  match fetchOutcome sftpClient j.RemotePath with
  | none => false
  | some data => resOk processFunc { ID := j.ID, Data := data }

/-- The number of jobs of the input list that end in `transferred`. -/
def succCount (sftpClient : SFTPClient) (processFunc : ProcessFunc)
    (jobs : List FileJob) : Nat :=
  jobs.countP (jobSucceeds sftpClient processFunc)

/-- A well-formed in-flight result: it was built by a fetch worker from
some input job `j`, carries exactly `j.ID` and exactly the bytes the
capability yielded for `j.RemotePath`. -/
def WFRes (sftpClient : SFTPClient) (jobs : List FileJob) (r : FileResult) : Prop :=
  ∃ j, j ∈ jobs ∧ fetchOutcome sftpClient j.RemotePath = some r.Data ∧ r.ID = j.ID

/-- The global invariant of a `TransferFiles` run with `R` fetch workers,
`W` process workers and input `jobs`.  It is preserved by every enabled
action (`step_inv`) and pins down the counters of every returned state:

* `readers`/`workers`: the worker pools are partitioned by local state;
* `conservation`: every job is either already counted or is in exactly
  one of the in-flight places (feeder, jobs channel, a sending fetch
  worker, results channel);
* `goodCount`: `transferred` plus the eventually-successful jobs still in
  flight equals the total number of successful jobs — so the counters are
  independent of the schedule and of the pool sizes;
* `feederSub`/`jobsQSub`: in-flight jobs come from the input list;
* `pushingWF`/`resultsWF`/`logWF`: every result that a fetch worker built,
  that sits in the results channel, or that was handed to `processFunc`
  carries the originating job's `ID` and the capability's bytes for it;
* `closedFeeder`: `jobsChan` is closed only after the feeder pushed all;
* `exitClosed`/`exitDrained`: fetch workers exit only once `jobsChan` is
  closed, and when all have exited `jobsChan` is drained;
* `closedAfterReaders`: `resultsChan` is closed only once every fetch
  worker has exited (the sentinel's contract);
* `closeOnce`: `resultsChan` was closed exactly once iff it is closed;
* `procExitClosed`/`procDrained`: process workers exit only after
  `resultsChan` is closed, and when all have exited it is drained. -/
structure Inv (sftpClient : SFTPClient) (processFunc : ProcessFunc)
    (R W : Nat) (jobs : List FileJob) (s : PipeState) : Prop where
  readers : s.idleR + s.pushing.length + s.doneR = R
  workers : s.idleW + s.doneW = W
  conservation : s.transferred + s.failed + s.feeder.length + s.jobsQ.length +
    s.pushing.length + s.resultsQ.length = jobs.length
  goodCount : s.transferred + List.countP (jobSucceeds sftpClient processFunc) s.feeder +
    List.countP (jobSucceeds sftpClient processFunc) s.jobsQ +
    List.countP (resOk processFunc) s.pushing +
    List.countP (resOk processFunc) s.resultsQ = succCount sftpClient processFunc jobs
  feederSub : ∀ j, j ∈ s.feeder → j ∈ jobs
  jobsQSub : ∀ j, j ∈ s.jobsQ → j ∈ jobs
  pushingWF : ∀ r, r ∈ s.pushing → WFRes sftpClient jobs r
  resultsWF : ∀ r, r ∈ s.resultsQ → WFRes sftpClient jobs r
  logWF : ∀ r, r ∈ s.processedLog → WFRes sftpClient jobs r
  closedFeeder : s.jobsClosed = true → s.feeder = []
  exitClosed : 1 ≤ s.doneR → s.jobsClosed = true
  exitDrained : 1 ≤ R → s.doneR = R → s.jobsQ = []
  closedAfterReaders : s.resultsClosed = true → s.doneR = R
  closeOnce : s.closeCount = if s.resultsClosed = true then 1 else 0
  procExitClosed : 1 ≤ s.doneW → s.resultsClosed = true
  procDrained : 1 ≤ W → s.doneW = W → s.resultsQ = []

end SftpGo

namespace SftpGo

/-- The invariant holds in the initial state. -/
theorem init_inv (sftpClient : SFTPClient) (processFunc : ProcessFunc)
    (R W : Nat) (jobs : List FileJob) :
    Inv sftpClient processFunc R W jobs (initState jobs R W) := by
  refine ⟨?_, ?_, ?_, ?_, ?_, ?_, ?_, ?_, ?_, ?_, ?_, ?_, ?_, ?_, ?_, ?_⟩ <;>
    simp [initState, succCount]

/-- Every enabled action preserves the invariant. -/
theorem step_inv {sftpClient : SFTPClient} {processFunc : ProcessFunc}
    {R W N chanCap : Nat} {jobs : List FileJob} {a : Action} {s s' : PipeState}
    (hInv : Inv sftpClient processFunc R W jobs s)
    (hstep : step sftpClient processFunc R N chanCap a s = some s') :
    Inv sftpClient processFunc R W jobs s' := by
  obtain ⟨hA, hB, hC, hD, hE, hE2, hF, hF2, hF3, hG, hH, hI, hJ, hK, hL, hM⟩ := hInv
  cases a with
  | feederPush =>
    simp only [step] at hstep
    split at hstep
    · exact Option.noConfusion hstep
    · rename_i j rest heq
      split_ifs at hstep with hguard
      obtain ⟨hcl, _⟩ := hguard
      injection hstep with hs
      subst hs
      refine ⟨?_, ?_, ?_, ?_, ?_, ?_, ?_, ?_, ?_, ?_, ?_, ?_, ?_, ?_, ?_, ?_⟩
      · exact hA
      · exact hB
      · simp only [heq, List.length_cons, List.length_append, List.length_nil] at hC ⊢
        omega
      · simp only [heq, List.countP_cons, List.countP_append, List.countP_nil] at hD ⊢
        omega
      · intro x hx
        exact hE x (by rw [heq]; exact List.mem_cons_of_mem j hx)
      · intro x hx
        simp only at hx
        rcases List.mem_append.mp hx with h | h
        · exact hE2 x h
        · rw [List.mem_singleton] at h
          subst h
          exact hE x (by rw [heq]; exact List.mem_cons_self x rest)
      · exact hF
      · exact hF2
      · exact hF3
      · intro h
        simp only at h
        rw [hcl] at h
        exact Bool.noConfusion h
      · exact hH
      · intro hR hdone
        have h1 : s.jobsClosed = true := hH (by simp only at hdone; omega)
        rw [hcl] at h1
        exact Bool.noConfusion h1
      · exact hJ
      · exact hK
      · exact hL
      · exact hM
  | feederClose =>
    simp only [step] at hstep
    split_ifs at hstep with hguard
    obtain ⟨hfe, _⟩ := hguard
    injection hstep with hs
    subst hs
    exact ⟨hA, hB, by simp only [hfe, List.length_nil] at hC ⊢; omega,
      by simp only [hfe, List.countP_nil] at hD ⊢; omega,
      hE, hE2, hF, hF2, hF3, fun _ => hfe, fun _ => rfl, hI, hJ, hK, hL, hM⟩
  | readerTake =>
    simp only [step] at hstep
    split_ifs at hstep with hidle
    split at hstep
    · exact Option.noConfusion hstep
    · rename_i j rest heq
      have hIcontra : ¬ (s.doneR = R) := by
        intro hdone
        omega
      split at hstep
      · rename_i e hOpen
        injection hstep with hs
        subst hs
        have hfa : fetchOutcome sftpClient j.RemotePath = none := by
          simp [fetchOutcome, hOpen]
        have hjs : ¬ (jobSucceeds sftpClient processFunc j = true) := by
          simp [jobSucceeds, hfa]
        refine ⟨hA, hB, ?_, ?_, hE, ?_, hF, hF2, hF3, hG, hH, ?_, hJ, hK, hL, hM⟩
        · simp only [heq, List.length_cons] at hC ⊢
          omega
        · rw [heq, List.countP_cons_of_neg _ _ hjs] at hD
          simp only
          omega
        · intro x hx
          exact hE2 x (by rw [heq]; exact List.mem_cons_of_mem j hx)
        · intro _ hdone
          exact absurd hdone hIcontra
      · rename_i f hOpen
        split at hstep
        · rename_i e hRead
          injection hstep with hs
          subst hs
          have hfa : fetchOutcome sftpClient j.RemotePath = none := by
            simp [fetchOutcome, hOpen, hRead]
          have hjs : ¬ (jobSucceeds sftpClient processFunc j = true) := by
            simp [jobSucceeds, hfa]
          refine ⟨hA, hB, ?_, ?_, hE, ?_, hF, hF2, hF3, hG, hH, ?_, hJ, hK, hL, hM⟩
          · simp only [heq, List.length_cons] at hC ⊢
            omega
          · rw [heq, List.countP_cons_of_neg _ _ hjs] at hD
            simp only
            omega
          · intro x hx
            exact hE2 x (by rw [heq]; exact List.mem_cons_of_mem j hx)
          · intro _ hdone
            exact absurd hdone hIcontra
        · rename_i data hRead
          injection hstep with hs
          subst hs
          have hfa : fetchOutcome sftpClient j.RemotePath = some data := by
            simp [fetchOutcome, hOpen, hRead]
          have hjs : jobSucceeds sftpClient processFunc j =
              resOk processFunc (FileResult.mk j.ID data) := by
            simp [jobSucceeds, hfa]
          have hjmem : j ∈ jobs := hE2 j (by rw [heq]; exact List.mem_cons_self j rest)
          refine ⟨?_, hB, ?_, ?_, hE, ?_, ?_, hF2, hF3, hG, hH, ?_, hJ, hK, hL, hM⟩
          · simp only [List.length_append, List.length_cons, List.length_nil]
            omega
          · simp only [heq, List.length_cons, List.length_append, List.length_nil] at hC ⊢
            omega
          · rw [heq, List.countP_cons, hjs] at hD
            simp only [List.countP_append, List.countP_cons, List.countP_nil]
            omega
          · intro x hx
            exact hE2 x (by rw [heq]; exact List.mem_cons_of_mem j hx)
          · intro r hr
            simp only at hr
            rcases List.mem_append.mp hr with h | h
            · exact hF r h
            · rw [List.mem_singleton] at h
              subst h
              exact ⟨j, hjmem, hfa, rfl⟩
          · intro _ hdone
            exact absurd hdone hIcontra
  | readerExit =>
    simp only [step] at hstep
    split_ifs at hstep with hguard
    obtain ⟨hidle, hqe, hclosed⟩ := hguard
    injection hstep with hs
    subst hs
    refine ⟨?_, hB, hC, hD, hE, hE2, hF, hF2, hF3, hG, fun _ => hclosed, ?_, ?_, hK, hL, hM⟩
    · simp only
      omega
    · intro _ _
      exact hqe
    · intro hrc
      have := hJ hrc
      simp only
      omega
  | readerSend pre r post =>
    simp only [step] at hstep
    split_ifs at hstep with hguard
    obtain ⟨hpush, _⟩ := hguard
    injection hstep with hs
    subst hs
    have hrmem : r ∈ s.pushing := by
      rw [hpush]
      exact List.mem_append.mpr (Or.inr (List.mem_cons_self r post))
    refine ⟨?_, hB, ?_, ?_, hE, hE2, ?_, ?_, hF3, hG, hH, hI, hJ, hK, hL, ?_⟩
    · simp only [hpush, List.length_append, List.length_cons] at hA ⊢
      omega
    · simp only [hpush, List.length_append, List.length_cons, List.length_nil] at hC ⊢
      omega
    · simp only [hpush, List.countP_append, List.countP_cons, List.countP_nil] at hD ⊢
      omega
    · intro x hx
      simp only at hx
      refine hF x ?_
      rw [hpush]
      rcases List.mem_append.mp hx with h | h
      · exact List.mem_append.mpr (Or.inl h)
      · exact List.mem_append.mpr (Or.inr (List.mem_cons_of_mem r h))
    · intro x hx
      simp only at hx
      rcases List.mem_append.mp hx with h | h
      · exact hF2 x h
      · rw [List.mem_singleton] at h
        subst h
        exact hF x hrmem
    · intro hW hdw
      simp only at hdw ⊢
      have hrc : s.resultsClosed = true := hL (by omega)
      have hdr : s.doneR = R := hJ hrc
      have : s.pushing.length = 0 := by omega
      rw [hpush] at this
      simp only [List.length_append, List.length_cons] at this
      omega
  | readerHandoff pre r post =>
    simp only [step] at hstep
    split_ifs at hstep with hguard
    obtain ⟨hpush, hre, hidleW⟩ := hguard
    have hrmem : r ∈ s.pushing := by
      rw [hpush]
      exact List.mem_append.mpr (Or.inr (List.mem_cons_self r post))
    have hpushsub : ∀ x, x ∈ pre ++ post → x ∈ s.pushing := by
      intro x hx
      rw [hpush]
      rcases List.mem_append.mp hx with h | h
      · exact List.mem_append.mpr (Or.inl h)
      · exact List.mem_append.mpr (Or.inr (List.mem_cons_of_mem r h))
    split at hstep
    · rename_i e hpf
      have hite : (if resOk processFunc r = true then 1 else 0) = 0 := by
        simp [resOk, hpf]
      injection hstep with hs
      subst hs
      refine ⟨?_, hB, ?_, ?_, hE, hE2, ?_, hF2, ?_, hG, hH, hI, hJ, hK, hL, hM⟩
      · simp only [hpush, List.length_append, List.length_cons] at hA ⊢
        omega
      · simp only [hpush, List.length_append, List.length_cons] at hC ⊢
        omega
      · simp only [hpush, List.countP_append, List.countP_cons, hite] at hD ⊢
        omega
      · intro x hx
        exact hF x (hpushsub x hx)
      · intro x hx
        simp only at hx
        rcases List.mem_append.mp hx with h | h
        · exact hF3 x h
        · rw [List.mem_singleton] at h
          subst h
          exact hF x hrmem
    · rename_i hpf
      have hite : (if resOk processFunc r = true then 1 else 0) = 1 := by
        simp [resOk, hpf]
      injection hstep with hs
      subst hs
      refine ⟨?_, hB, ?_, ?_, hE, hE2, ?_, hF2, ?_, hG, hH, hI, hJ, hK, hL, hM⟩
      · simp only [hpush, List.length_append, List.length_cons] at hA ⊢
        omega
      · simp only [hpush, List.length_append, List.length_cons] at hC ⊢
        omega
      · simp only [hpush, List.countP_append, List.countP_cons, hite] at hD ⊢
        omega
      · intro x hx
        exact hF x (hpushsub x hx)
      · intro x hx
        simp only at hx
        rcases List.mem_append.mp hx with h | h
        · exact hF3 x h
        · rw [List.mem_singleton] at h
          subst h
          exact hF x hrmem
  | sentinelClose =>
    simp only [step] at hstep
    split_ifs at hstep with hguard
    obtain ⟨hdone, hrc⟩ := hguard
    injection hstep with hs
    subst hs
    refine ⟨hA, hB, hC, hD, hE, hE2, hF, hF2, hF3, hG, hH, hI, fun _ => hdone, ?_, fun _ => rfl, hM⟩
    simp only [hrc] at hK
    simp [hK]
  | procTake =>
    simp only [step] at hstep
    split_ifs at hstep with hidle
    split at hstep
    · exact Option.noConfusion hstep
    · rename_i r rest heq
      have hMcontra : W ≤ s.doneW → False := by
        intro h
        omega
      have hrmem : r ∈ s.resultsQ := by
        rw [heq]
        exact List.mem_cons_self r rest
      split at hstep
      · rename_i e hpf
        have hro : ¬ (resOk processFunc r = true) := by
          simp [resOk, hpf]
        injection hstep with hs
        subst hs
        refine ⟨hA, hB, ?_, ?_, hE, hE2, hF, ?_, ?_, hG, hH, hI, hJ, hK, hL, ?_⟩
        · simp only [heq, List.length_cons] at hC ⊢
          omega
        · rw [heq, List.countP_cons_of_neg _ _ hro] at hD
          simp only
          omega
        · intro x hx
          exact hF2 x (by rw [heq]; exact List.mem_cons_of_mem r hx)
        · intro x hx
          simp only at hx
          rcases List.mem_append.mp hx with h | h
          · exact hF3 x h
          · rw [List.mem_singleton] at h
            subst h
            exact hF2 x hrmem
        · intro hW hdw
          simp only at hdw
          exact absurd (by omega : W ≤ s.doneW) (fun h => hMcontra h)
      · rename_i hpf
        have hro : resOk processFunc r = true := by
          simp [resOk, hpf]
        injection hstep with hs
        subst hs
        refine ⟨hA, hB, ?_, ?_, hE, hE2, hF, ?_, ?_, hG, hH, hI, hJ, hK, hL, ?_⟩
        · simp only [heq, List.length_cons] at hC ⊢
          omega
        · rw [heq, List.countP_cons_of_pos _ _ hro] at hD
          simp only
          omega
        · intro x hx
          exact hF2 x (by rw [heq]; exact List.mem_cons_of_mem r hx)
        · intro x hx
          simp only at hx
          rcases List.mem_append.mp hx with h | h
          · exact hF3 x h
          · rw [List.mem_singleton] at h
            subst h
            exact hF2 x hrmem
        · intro hW hdw
          simp only at hdw
          exact absurd (by omega : W ≤ s.doneW) (fun h => hMcontra h)
  | procExit =>
    simp only [step] at hstep
    split_ifs at hstep with hguard
    obtain ⟨hidle, hre, hrc⟩ := hguard
    injection hstep with hs
    subst hs
    refine ⟨hA, ?_, hC, hD, hE, hE2, hF, hF2, hF3, hG, hH, hI, hJ, hK, fun _ => hrc, ?_⟩
    · simp only
      omega
    · intro _ _
      exact hre

/-- The invariant is preserved along any schedule. -/
theorem exec_inv {sftpClient : SFTPClient} {processFunc : ProcessFunc}
    {R W N chanCap : Nat} {jobs : List FileJob} :
    ∀ {acts : List Action} {s s' : PipeState},
      Inv sftpClient processFunc R W jobs s →
      exec sftpClient processFunc R N chanCap acts s = some s' →
      Inv sftpClient processFunc R W jobs s' := by
  intro acts
  induction acts with
  | nil =>
    intro s s' hInv hex
    simp only [exec] at hex
    injection hex with h
    subst h
    exact hInv
  | cons a rest ih =>
    intro s s' hInv hex
    simp only [exec] at hex
    split at hex
    · exact Option.noConfusion hex
    · rename_i s1 hstep
      exact ih (step_inv hInv hstep) hex

/-- The invariant holds in every state reachable from the start of a
`TransferFiles` run. -/
theorem pipeExec_inv {cfg : PipelineCfg} {sftpClient : SFTPClient}
    {jobs : List FileJob} {processFunc : ProcessFunc} {sched : List Action}
    {s : PipeState}
    (h : pipeExec cfg sftpClient jobs processFunc sched = some s) :
    Inv sftpClient processFunc cfg.SFTPReaders.toNat cfg.Workers.toNat jobs s :=
  exec_inv (init_inv sftpClient processFunc cfg.SFTPReaders.toNat cfg.Workers.toNat jobs) h

/-- Master lemma: in any state in which `TransferFiles` with positive
pool sizes returns (all `W ≥ 1` process workers have exited), the whole
pipeline has drained and terminated, and the counters are exactly the
schedule-independent job tally: `transferred` counts the jobs whose fetch
and processing both succeed, `failed` counts the rest. -/
theorem returned_state {sftpClient : SFTPClient} {processFunc : ProcessFunc}
    {R W : Nat} {jobs : List FileJob} {s : PipeState}
    (hInv : Inv sftpClient processFunc R W jobs s)
    (hR : 1 ≤ R) (hW : 1 ≤ W) (hret : s.doneW = W) :
    s.transferred = succCount sftpClient processFunc jobs ∧
    s.transferred + s.failed = jobs.length ∧
    s.feeder = [] ∧ s.jobsQ = [] ∧ s.pushing = [] ∧ s.resultsQ = [] ∧
    s.jobsClosed = true ∧ s.resultsClosed = true ∧
    s.idleR = 0 ∧ s.doneR = R ∧ s.idleW = 0 := by
  obtain ⟨hA, hB, hC, hD, hE, hE2, hF, hF2, hF3, hG, hH, hI, hJ, hK, hL, hM⟩ := hInv
  have hrc : s.resultsClosed = true := hL (by omega)
  have hdr : s.doneR = R := hJ hrc
  have hjc : s.jobsClosed = true := hH (by omega)
  have hfe : s.feeder = [] := hG hjc
  have hjq : s.jobsQ = [] := hI hR hdr
  have hpu : s.pushing = [] := by
    have : s.pushing.length = 0 := by omega
    exact List.length_eq_zero.mp this
  have hrq : s.resultsQ = [] := hM hW hret
  refine ⟨?_, ?_, hfe, hjq, hpu, hrq, hjc, hrc, ?_, hdr, ?_⟩
  · rw [hfe, hjq, hpu, hrq] at hD
    simp only [List.countP_nil] at hD
    omega
  · rw [hfe, hjq, hpu, hrq] at hC
    simp only [List.length_nil] at hC
    omega
  · omega
  · omega

/-- When `Open` fails on every path, no `FileResult` is ever created, so
the results channel stays empty, `processFunc` is never invoked and
`transferred` is never incremented.  Auxiliary invariant for the
all-fetches-fail scenario. -/
def NoResults (s : PipeState) : Prop :=
  s.pushing = [] ∧ s.resultsQ = [] ∧ s.processedLog = [] ∧
  s.procCalls = 0 ∧ s.transferred = 0

/-- `NoResults` is preserved when the capability rejects every path. -/
theorem step_noResults {sftpClient : SFTPClient} {processFunc : ProcessFunc}
    {R N chanCap : Nat} {a : Action} {s s' : PipeState}
    (hopen : ∀ p, fetchOutcome sftpClient p = none)
    (hs : NoResults s)
    (hstep : step sftpClient processFunc R N chanCap a s = some s') :
    NoResults s' := by
  obtain ⟨hpu, hrq, hlog, hpc, htr⟩ := hs
  cases a with
  | feederPush =>
    simp only [step] at hstep
    split at hstep
    · exact Option.noConfusion hstep
    · split_ifs at hstep
      injection hstep with h
      subst h
      exact ⟨hpu, hrq, hlog, hpc, htr⟩
  | feederClose =>
    simp only [step] at hstep
    split_ifs at hstep
    injection hstep with h
    subst h
    exact ⟨hpu, hrq, hlog, hpc, htr⟩
  | readerTake =>
    simp only [step] at hstep
    split_ifs at hstep
    split at hstep
    · exact Option.noConfusion hstep
    · rename_i j rest heq
      split at hstep
      · injection hstep with h
        subst h
        exact ⟨hpu, hrq, hlog, hpc, htr⟩
      · rename_i f hOpen
        split at hstep
        · injection hstep with h
          subst h
          exact ⟨hpu, hrq, hlog, hpc, htr⟩
        · rename_i data hRead
          have := hopen j.RemotePath
          simp [fetchOutcome, hOpen, hRead] at this
  | readerExit =>
    simp only [step] at hstep
    split_ifs at hstep
    injection hstep with h
    subst h
    exact ⟨hpu, hrq, hlog, hpc, htr⟩
  | readerSend pre r post =>
    simp only [step] at hstep
    split_ifs at hstep with hguard
    rw [hpu] at hguard
    exact absurd hguard.1.symm (by simp)
  | readerHandoff pre r post =>
    simp only [step] at hstep
    split_ifs at hstep with hguard
    rw [hpu] at hguard
    exact absurd hguard.1.symm (by simp)
  | sentinelClose =>
    simp only [step] at hstep
    split_ifs at hstep
    injection hstep with h
    subst h
    exact ⟨hpu, hrq, hlog, hpc, htr⟩
  | procTake =>
    simp only [step] at hstep
    split_ifs at hstep
    split at hstep
    · exact Option.noConfusion hstep
    · rename_i r rest heq
      rw [hrq] at heq
      exact List.noConfusion heq
  | procExit =>
    simp only [step] at hstep
    split_ifs at hstep
    injection hstep with h
    subst h
    exact ⟨hpu, hrq, hlog, hpc, htr⟩

/-- `NoResults` along any schedule, when every fetch fails. -/
theorem exec_noResults {sftpClient : SFTPClient} {processFunc : ProcessFunc}
    {R N chanCap : Nat}
    (hopen : ∀ p, fetchOutcome sftpClient p = none) :
    ∀ {acts : List Action} {s s' : PipeState}, NoResults s →
      exec sftpClient processFunc R N chanCap acts s = some s' → NoResults s' := by
  intro acts
  induction acts with
  | nil =>
    intro s s' h hex
    simp only [exec] at hex
    injection hex with h2
    subst h2
    exact h
  | cons a rest ih =>
    intro s s' h hex
    simp only [exec] at hex
    split at hex
    · exact Option.noConfusion hex
    · rename_i s1 hstep
      exact ih (step_noResults hopen h hstep) hex

/-- With zero fetch workers nothing is ever fetched or processed: no
action can change the counters or invoke either capability.  Auxiliary
invariant for the `SFTPReaders = 0` configuration. -/
def ZeroWork (s : PipeState) : Prop :=
  s.idleR = 0 ∧ s.pushing = [] ∧ s.resultsQ = [] ∧
  s.transferred = 0 ∧ s.failed = 0 ∧ s.fetchCalls = 0 ∧ s.procCalls = 0 ∧
  s.processedLog = []

/-- `ZeroWork` is preserved by every action (for any `R`; it is
established at initialisation only when `R = 0`). -/
theorem step_zeroWork {sftpClient : SFTPClient} {processFunc : ProcessFunc}
    {R N chanCap : Nat} {a : Action} {s s' : PipeState}
    (hs : ZeroWork s)
    (hstep : step sftpClient processFunc R N chanCap a s = some s') :
    ZeroWork s' := by
  obtain ⟨hir, hpu, hrq, htr, hfl, hfc, hpc, hlog⟩ := hs
  cases a with
  | feederPush =>
    simp only [step] at hstep
    split at hstep
    · exact Option.noConfusion hstep
    · split_ifs at hstep
      injection hstep with h
      subst h
      exact ⟨hir, hpu, hrq, htr, hfl, hfc, hpc, hlog⟩
  | feederClose =>
    simp only [step] at hstep
    split_ifs at hstep
    injection hstep with h
    subst h
    exact ⟨hir, hpu, hrq, htr, hfl, hfc, hpc, hlog⟩
  | readerTake =>
    simp only [step] at hstep
    split_ifs at hstep with hidle
    omega
  | readerExit =>
    simp only [step] at hstep
    split_ifs at hstep with hguard
    omega
  | readerSend pre r post =>
    simp only [step] at hstep
    split_ifs at hstep with hguard
    rw [hpu] at hguard
    exact absurd hguard.1.symm (by simp)
  | readerHandoff pre r post =>
    simp only [step] at hstep
    split_ifs at hstep with hguard
    rw [hpu] at hguard
    exact absurd hguard.1.symm (by simp)
  | sentinelClose =>
    simp only [step] at hstep
    split_ifs at hstep
    injection hstep with h
    subst h
    exact ⟨hir, hpu, hrq, htr, hfl, hfc, hpc, hlog⟩
  | procTake =>
    simp only [step] at hstep
    split_ifs at hstep
    split at hstep
    · exact Option.noConfusion hstep
    · rename_i r rest heq
      rw [hrq] at heq
      exact List.noConfusion heq
  | procExit =>
    simp only [step] at hstep
    split_ifs at hstep
    injection hstep with h
    subst h
    exact ⟨hir, hpu, hrq, htr, hfl, hfc, hpc, hlog⟩

/-- `ZeroWork` along any schedule. -/
theorem exec_zeroWork {sftpClient : SFTPClient} {processFunc : ProcessFunc}
    {R N chanCap : Nat} :
    ∀ {acts : List Action} {s s' : PipeState}, ZeroWork s →
      exec sftpClient processFunc R N chanCap acts s = some s' → ZeroWork s' := by
  intro acts
  induction acts with
  | nil =>
    intro s s' h hex
    simp only [exec] at hex
    injection hex with h2
    subst h2
    exact h
  | cons a rest ih =>
    intro s s' h hex
    simp only [exec] at hex
    split at hex
    · exact Option.noConfusion hex
    · rename_i s1 hstep
      exact ih (step_zeroWork h hstep) hex

end SftpGo

namespace SftpGo

/-- One interleaved step of the test wrapper `TransferFilesMock`
(src/main_test.go lines 114-177).  The wrapper duplicates the pipeline
body of `TransferFiles` verbatim, except that it takes any capability
exposing `Open(string) (io.ReadCloser, error)` instead of an
`*sftp.Client`; both are embedded as `SFTPClient`. -/
def stepMock (client : SFTPClient) (processFunc : ProcessFunc) (R N chanCap : Nat) :
    Action → PipeState → Option PipeState
  | Action.feederPush, s =>
    match s.feeder with
    | [] => none
    | j :: rest =>
      if s.jobsClosed = false ∧ s.jobsQ.length < N then
        some { s with
          feeder := rest
          jobsQ := s.jobsQ ++ [j] }
      else none
  | Action.feederClose, s =>
    if s.feeder = [] ∧ s.jobsClosed = false then
      some { s with jobsClosed := true }
    else none
  | Action.readerTake, s =>
    if 1 ≤ s.idleR then
      match s.jobsQ with
      | [] => none
      | j :: rest =>
        match client.Open j.RemotePath with
        | Except.error _ =>
          some { s with
            jobsQ := rest
            failed := s.failed + 1
            fetchCalls := s.fetchCalls + 1 }
        | Except.ok f =>
          match f.readAll with
          | Except.error _ =>
            some { s with
              jobsQ := rest
              failed := s.failed + 1
              fetchCalls := s.fetchCalls + 1 }
          | Except.ok data =>
            some { s with
              jobsQ := rest
              idleR := s.idleR - 1
              pushing := s.pushing ++ [FileResult.mk j.ID data]
              fetchCalls := s.fetchCalls + 1 }
    else none
  | Action.readerExit, s =>
    if 1 ≤ s.idleR ∧ s.jobsQ = [] ∧ s.jobsClosed = true then
      some { s with
        idleR := s.idleR - 1
        doneR := s.doneR + 1 }
    else none
  | Action.readerSend pre r post, s =>
    if s.pushing = pre ++ r :: post ∧ s.resultsQ.length < chanCap then
      some { s with
        pushing := pre ++ post
        resultsQ := s.resultsQ ++ [r]
        idleR := s.idleR + 1 }
    else none
  | Action.readerHandoff pre r post, s =>
    if s.pushing = pre ++ r :: post ∧ s.resultsQ = [] ∧ 1 ≤ s.idleW then
      match processFunc r with
      | some _ =>
        some { s with
          pushing := pre ++ post
          idleR := s.idleR + 1
          failed := s.failed + 1
          procCalls := s.procCalls + 1
          processedLog := s.processedLog ++ [r] }
      | none =>
        some { s with
          pushing := pre ++ post
          idleR := s.idleR + 1
          transferred := s.transferred + 1
          procCalls := s.procCalls + 1
          processedLog := s.processedLog ++ [r] }
    else none
  | Action.sentinelClose, s =>
    if s.doneR = R ∧ s.resultsClosed = false then
      some { s with
        resultsClosed := true
        closeCount := s.closeCount + 1 }
    else none
  | Action.procTake, s =>
    if 1 ≤ s.idleW then
      match s.resultsQ with
      | [] => none
      | r :: rest =>
        match processFunc r with
        | some _ =>
          some { s with
            resultsQ := rest
            failed := s.failed + 1
            procCalls := s.procCalls + 1
            processedLog := s.processedLog ++ [r] }
        | none =>
          some { s with
            resultsQ := rest
            transferred := s.transferred + 1
            procCalls := s.procCalls + 1
            processedLog := s.processedLog ++ [r] }
    else none
  | Action.procExit, s =>
    if 1 ≤ s.idleW ∧ s.resultsQ = [] ∧ s.resultsClosed = true then
      some { s with
        idleW := s.idleW - 1
        doneW := s.doneW + 1 }
    else none

/-- Run a schedule of the test wrapper. -/
def execMock (client : SFTPClient) (processFunc : ProcessFunc) (R N chanCap : Nat) :
    List Action → PipeState → Option PipeState
  | [], s => some s
  | a :: acts, s =>
    match stepMock client processFunc R N chanCap a s with
    | none => none
    | some s2 => execMock client processFunc R N chanCap acts s2

/-- `(cfg).TransferFilesMock(client, jobs, processFunc)` under a given
schedule (src/main_test.go lines 114-177): identical wiring to
`TransferFiles` — same channel capacities, same pools, same counters —
returning `(transferred, failed)` when all process workers have exited. -/
def PipelineCfg.TransferFilesMock (cfg : PipelineCfg) (client : SFTPClient)
    (jobs : List FileJob) (processFunc : ProcessFunc) (sched : List Action) :
    Option (Nat × Nat) :=
  match execMock client processFunc cfg.SFTPReaders.toNat jobs.length
      cfg.BufferSize.toNat sched (initState jobs cfg.SFTPReaders.toNat cfg.Workers.toNat) with
  | none => none
  | some s =>
    if s.doneW = cfg.Workers.toNat then some (s.transferred, s.failed) else none

end SftpGo

namespace SftpGo

/-- The two transcribed step functions coincide. -/
theorem stepMock_eq_step (client : SFTPClient) (processFunc : ProcessFunc)
    (R N chanCap : Nat) (a : Action) (s : PipeState) :
    stepMock client processFunc R N chanCap a s =
      step client processFunc R N chanCap a s := by
  cases a <;> rfl

/-- The two transcribed executors coincide. -/
theorem execMock_eq_exec (client : SFTPClient) (processFunc : ProcessFunc)
    (R N chanCap : Nat) :
    ∀ (acts : List Action) (s : PipeState),
      execMock client processFunc R N chanCap acts s =
        exec client processFunc R N chanCap acts s := by
  intro acts
  induction acts with
  | nil => intro s; rfl
  | cons a rest ih =>
    intro s
    simp only [execMock, exec, stepMock_eq_step]
    split <;> simp [ih]

end SftpGo

namespace SftpGo

/-- Whenever `TransferFiles` with positive pool sizes returns `(t, f)`,
`t` is the schedule-independent tally of jobs whose fetch and processing
both succeed, and the two counters partition the input jobs. -/
theorem transferFiles_returns_counts {cfg : PipelineCfg} {sftpClient : SFTPClient}
    {jobs : List FileJob} {processFunc : ProcessFunc} {sched : List Action} {t f : Nat}
    (hR : 1 ≤ cfg.SFTPReaders) (hW : 1 ≤ cfg.Workers)
    (h : cfg.TransferFiles sftpClient jobs processFunc sched = some (t, f)) :
    t = succCount sftpClient processFunc jobs ∧ t + f = jobs.length := by
  simp only [PipelineCfg.TransferFiles] at h
  split at h
  · exact Option.noConfusion h
  · rename_i s hpe
    split_ifs at h with hdw
    · injection h with h2
      injection h2 with ht hf
      subst ht
      subst hf
      have hInv := pipeExec_inv hpe
      have hRn : 1 ≤ cfg.SFTPReaders.toNat := by omega
      have hWn : 1 ≤ cfg.Workers.toNat := by omega
      obtain ⟨h1, h2, _⟩ := returned_state hInv hRn hWn hdw
      exact ⟨h1, h2⟩

/-- Claim C1: for every job list, configuration with positive
fetch-concurrency and process-concurrency, transfer capability and
processing function, whenever `TransferFiles` returns, the returned
counters satisfy `transferred + failed = len(jobs)` (each job contributed
exactly one increment to exactly one counter; the `conservation` and
`goodCount` fields of `Inv` make the per-job accounting explicit). -/
theorem counts_partition_jobs (cfg : PipelineCfg) (sftpClient : SFTPClient)
    (jobs : List FileJob) (processFunc : ProcessFunc) (sched : List Action)
    (t f : Nat)
    (hR : 1 ≤ cfg.SFTPReaders) (hW : 1 ≤ cfg.Workers)
    (h : cfg.TransferFiles sftpClient jobs processFunc sched = some (t, f)) :
    t + f = jobs.length :=
  (transferFiles_returns_counts hR hW h).2

/-- Claim C4: if the capability yields bytes for every requested locator
and the processing function accepts every result, then `TransferFiles`
returns `transferred = len(jobs)` and `failed = 0`. -/
theorem all_success_counts (cfg : PipelineCfg) (sftpClient : SFTPClient)
    (jobs : List FileJob) (processFunc : ProcessFunc) (sched : List Action)
    (t f : Nat)
    (hR : 1 ≤ cfg.SFTPReaders) (hW : 1 ≤ cfg.Workers)
    (hfetch : ∀ j ∈ jobs, (fetchOutcome sftpClient j.RemotePath).isSome = true)
    (hpf : ∀ r, processFunc r = none)
    (h : cfg.TransferFiles sftpClient jobs processFunc sched = some (t, f)) :
    t = jobs.length ∧ f = 0 := by
  obtain ⟨h1, h2⟩ := transferFiles_returns_counts hR hW h
  have hall : ∀ j ∈ jobs, jobSucceeds sftpClient processFunc j = true := by
    intro j hj
    rcases Option.isSome_iff_exists.mp (hfetch j hj) with ⟨d, hd⟩
    simp [jobSucceeds, hd, resOk, hpf]
  have hsc : succCount sftpClient processFunc jobs = jobs.length :=
    List.countP_eq_length.mpr hall
  rw [succCount] at hsc
  rw [succCount] at h1
  constructor <;> omega

/-- Claim C5: if every fetch succeeds but the processing function rejects
every result, then `TransferFiles` returns `failed = len(jobs)` and
`transferred = 0`: a processing failure increments `failed`, a processing
success increments `transferred`, exactly one per result. -/
theorem all_process_fail_counts (cfg : PipelineCfg) (sftpClient : SFTPClient)
    (jobs : List FileJob) (processFunc : ProcessFunc) (sched : List Action)
    (t f : Nat)
    (hR : 1 ≤ cfg.SFTPReaders) (hW : 1 ≤ cfg.Workers)
    (hfetch : ∀ j ∈ jobs, (fetchOutcome sftpClient j.RemotePath).isSome = true)
    (hpf : ∀ r, ∃ e, processFunc r = some e)
    (h : cfg.TransferFiles sftpClient jobs processFunc sched = some (t, f)) :
    t = 0 ∧ f = jobs.length := by
  obtain ⟨h1, h2⟩ := transferFiles_returns_counts hR hW h
  have hnone : ∀ j ∈ jobs, ¬ (jobSucceeds sftpClient processFunc j = true) := by
    intro j hj
    cases hfo : fetchOutcome sftpClient j.RemotePath with
    | none => simp [jobSucceeds, hfo]
    | some d =>
      rcases hpf (FileResult.mk j.ID d) with ⟨e, he⟩
      simp [jobSucceeds, hfo, resOk, he]
  have hsc : succCount sftpClient processFunc jobs = 0 :=
    List.countP_eq_zero.mpr hnone
  rw [succCount] at hsc
  rw [succCount] at h1
  constructor <;> omega

/-- Claim C6: for a fixed job list, capability and processing function,
any two returning runs of `TransferFiles` whose configurations have
positive fetch-concurrency, process-concurrency and buffer size yield
identical `(transferred, failed)` pairs, whatever the two configurations
and schedules are. -/
theorem counts_config_independent (cfg1 cfg2 : PipelineCfg)
    (sftpClient : SFTPClient) (jobs : List FileJob) (processFunc : ProcessFunc)
    (sched1 sched2 : List Action) (t1 f1 t2 f2 : Nat)
    (hR1 : 1 ≤ cfg1.SFTPReaders) (hW1 : 1 ≤ cfg1.Workers) (hB1 : 1 ≤ cfg1.BufferSize)
    (hR2 : 1 ≤ cfg2.SFTPReaders) (hW2 : 1 ≤ cfg2.Workers) (hB2 : 1 ≤ cfg2.BufferSize)
    (h1 : cfg1.TransferFiles sftpClient jobs processFunc sched1 = some (t1, f1))
    (h2 : cfg2.TransferFiles sftpClient jobs processFunc sched2 = some (t2, f2)) :
    t1 = t2 ∧ f1 = f2 := by
  obtain ⟨ha1, hb1⟩ := transferFiles_returns_counts hR1 hW1 h1
  obtain ⟨ha2, hb2⟩ := transferFiles_returns_counts hR2 hW2 h2
  constructor <;> omega

/-- Claim C7: `TransferFiles` (src/main.go, taking an `*sftp.Client`)
and the test wrapper `TransferFilesMock` (src/main_test.go, taking any
capability exposing `Open`) are the same pipeline: for every
configuration, capability behaviour, job list, processing function and
schedule they produce the same result. -/
theorem transferFilesMock_eq_transferFiles (cfg : PipelineCfg)
    (client : SFTPClient) (jobs : List FileJob) (processFunc : ProcessFunc)
    (sched : List Action) :
    cfg.TransferFilesMock client jobs processFunc sched =
      cfg.TransferFiles client jobs processFunc sched := by
  simp only [PipelineCfg.TransferFilesMock, PipelineCfg.TransferFiles, pipeExec,
    execMock_eq_exec]

/-- Claim C8: every result a fetch worker is sending, every result in the
results channel and every result handed to the processing function
carries exactly the originating job identity and exactly the bytes the
capability yielded for that job locator — results are never mutated
between creation and consumption. -/
theorem result_integrity (cfg : PipelineCfg) (sftpClient : SFTPClient)
    (jobs : List FileJob) (processFunc : ProcessFunc) (sched : List Action)
    (s : PipeState) (r : FileResult)
    (h : pipeExec cfg sftpClient jobs processFunc sched = some s)
    (hr : r ∈ s.pushing ++ s.resultsQ ++ s.processedLog) :
    WFRes sftpClient jobs r := by
  have hInv := pipeExec_inv h
  rcases List.mem_append.mp hr with hx | hx
  · rcases List.mem_append.mp hx with hy | hy
    · exact hInv.pushingWF r hy
    · exact hInv.resultsWF r hy
  · exact hInv.logWF r hx

/-- Claim C9: in every reachable state of a run with positive pool sizes
the results channel has been closed at most once and only after all fetch
workers exited; and when the run returns it has been closed exactly once
and every spawned concurrent unit (feeder, fetch workers, sentinel,
process workers) has terminated — no worker remains blocked on a queue. -/
theorem close_once_and_no_leak (cfg : PipelineCfg) (sftpClient : SFTPClient)
    (jobs : List FileJob) (processFunc : ProcessFunc) (sched : List Action)
    (s : PipeState)
    (hR : 1 ≤ cfg.SFTPReaders) (hW : 1 ≤ cfg.Workers)
    (h : pipeExec cfg sftpClient jobs processFunc sched = some s) :
    s.closeCount ≤ 1 ∧
    (s.resultsClosed = true → s.doneR = cfg.SFTPReaders.toNat) ∧
    (s.doneW = cfg.Workers.toNat →
      s.closeCount = 1 ∧ s.feeder = [] ∧ s.jobsClosed = true ∧ s.idleR = 0 ∧
      s.pushing = [] ∧ s.doneR = cfg.SFTPReaders.toNat ∧ s.resultsClosed = true ∧
      s.resultsQ = [] ∧ s.idleW = 0) := by
  have hInv := pipeExec_inv h
  refine ⟨?_, hInv.closedAfterReaders, ?_⟩
  · rw [hInv.closeOnce]
    split <;> omega
  · intro hret
    have hRn : 1 ≤ cfg.SFTPReaders.toNat := by omega
    have hWn : 1 ≤ cfg.Workers.toNat := by omega
    obtain ⟨_, _, hfe, hjq, hpu, hrq, hjc, hrc, hir, hdr, hiw⟩ :=
      returned_state hInv hRn hWn hret
    refine ⟨?_, hfe, hjc, hir, hpu, hdr, hrc, hrq, hiw⟩
    rw [hInv.closeOnce, hrc]
    simp

/-- Claim C10: with `SFTPReaders = 0` and a non-empty job list, a
returning run of `TransferFiles` touches nothing: it returns `(0, 0)`
without invoking the capability or the processing function (the ghost
call counters stay at zero), the results channel still gets closed
(immediately, as `readWg.Wait()` returns at once), and the returned
counts fail to account for the input jobs. -/
theorem zero_readers_returns_zero (cfg : PipelineCfg) (sftpClient : SFTPClient)
    (jobs : List FileJob) (processFunc : ProcessFunc) (sched : List Action)
    (s : PipeState)
    (hR : cfg.SFTPReaders = 0) (hjobs : jobs ≠ [])
    (h : pipeExec cfg sftpClient jobs processFunc sched = some s)
    (hret : s.doneW = cfg.Workers.toNat) :
    s.transferred = 0 ∧ s.failed = 0 ∧ s.fetchCalls = 0 ∧ s.procCalls = 0 ∧
    cfg.TransferFiles sftpClient jobs processFunc sched = some (0, 0) ∧
    s.transferred + s.failed ≠ jobs.length ∧
    (1 ≤ cfg.Workers → s.resultsClosed = true) := by
  have hInv := pipeExec_inv h
  have hzw : ZeroWork s := by
    have hinit : ZeroWork (initState jobs cfg.SFTPReaders.toNat cfg.Workers.toNat) := by
      refine ⟨?_, rfl, rfl, rfl, rfl, rfl, rfl, rfl⟩
      simp [initState, hR]
    exact exec_zeroWork hinit h
  obtain ⟨hir, hpu, hrq, htr, hfl, hfc, hpc, hlog⟩ := hzw
  have hlen : 0 < jobs.length := List.length_pos.mpr hjobs
  refine ⟨htr, hfl, hfc, hpc, ?_, ?_, ?_⟩
  · simp only [PipelineCfg.TransferFiles, h]
    rw [if_pos hret, htr, hfl]
  · omega
  · intro hw
    exact hInv.procExitClosed (by omega)

end SftpGo

namespace SftpGo

/-- Claim C3: if the capability's `Open` fails for every locator, a
returning run of `TransferFiles` with positive pool sizes counts every
job as failed, transfers nothing, and never invokes the processing
function (`procCalls = 0`). -/
theorem unreachable_capability_counts (cfg : PipelineCfg)
    (sftpClient : SFTPClient) (jobs : List FileJob) (processFunc : ProcessFunc)
    (sched : List Action) (s : PipeState)
    (hR : 1 ≤ cfg.SFTPReaders) (hW : 1 ≤ cfg.Workers)
    (hopen : ∀ p, ∃ e, sftpClient.Open p = Except.error e)
    (h : pipeExec cfg sftpClient jobs processFunc sched = some s)
    (hret : s.doneW = cfg.Workers.toNat) :
    s.failed = jobs.length ∧ s.transferred = 0 ∧ s.procCalls = 0 ∧
    cfg.TransferFiles sftpClient jobs processFunc sched =
      some (0, jobs.length) := by
  have hInv := pipeExec_inv h
  have hfo : ∀ p, fetchOutcome sftpClient p = none := by
    intro p
    rcases hopen p with ⟨e, he⟩
    simp [fetchOutcome, he]
  have hnr : NoResults s := by
    have hinit : NoResults (initState jobs cfg.SFTPReaders.toNat cfg.Workers.toNat) :=
      ⟨rfl, rfl, rfl, rfl, rfl⟩
    exact exec_noResults hfo hinit h
  obtain ⟨hpu, hrq, hlog, hpc, htr⟩ := hnr
  have hRn : 1 ≤ cfg.SFTPReaders.toNat := by omega
  have hWn : 1 ≤ cfg.Workers.toNat := by omega
  obtain ⟨_, hsum, _⟩ := returned_state hInv hRn hWn hret
  have hfail : s.failed = jobs.length := by omega
  refine ⟨hfail, htr, hpc, ?_⟩
  simp only [PipelineCfg.TransferFiles, h]
  rw [if_pos hret, htr, hfail]

end SftpGo

namespace SftpGo

/-- Concrete job: remote path `"a"`, identity `"1"`. -/
def jobA : FileJob := { RemotePath := "a", ID := "1" }

/-- Concrete job: remote path `"b"`, identity `"2"`. -/
def jobB : FileJob := { RemotePath := "b", ID := "2" }

/-- In-memory capability double holding bytes for `"a"` and `"b"`. -/
def clientAB : SFTPClient :=
  { Open := fun p =>
      if p = "a" then Except.ok { readAll := Except.ok [7] }
      else if p = "b" then Except.ok { readAll := Except.ok [8, 9] }
      else Except.error "file not found" }

/-- Capability double whose `Open` fails on every path. -/
def clientNone : SFTPClient := { Open := fun _ => Except.error "file not found" }

/-- Processing function that accepts every result. -/
def pfOk : ProcessFunc := fun _ => none

/-- Processing function that rejects every result. -/
def pfFail : ProcessFunc := fun _ => some "bad"

/-- A minimal positive configuration. -/
def cfgOne : PipelineCfg := { SFTPReaders := 1, Workers := 1, BufferSize := 1 }

/-- Another positive configuration (two fetch workers, larger buffer). -/
def cfgTwo : PipelineCfg := { SFTPReaders := 2, Workers := 1, BufferSize := 2 }

/-- A configuration with zero fetch workers. -/
def cfgZero : PipelineCfg := { SFTPReaders := 0, Workers := 1, BufferSize := 1 }

/-- The result fetched for `jobA`. -/
def rA : FileResult := { ID := "1", Data := [7] }

/-- The result fetched for `jobB`. -/
def rB : FileResult := { ID := "2", Data := [8, 9] }

/-- A returning schedule for `cfgOne` on `[jobA, jobB]` with `clientAB`. -/
def schedOk : List Action :=
  [Action.feederPush, Action.feederPush, Action.feederClose,
   Action.readerTake, Action.readerSend [] rA [],
   Action.readerTake, Action.procTake,
   Action.readerSend [] rB [], Action.readerExit, Action.sentinelClose,
   Action.procTake, Action.procExit]

/-- A returning schedule for `cfgOne` on `[jobA, jobB]` when every fetch
fails. -/
def schedFail : List Action :=
  [Action.feederPush, Action.feederPush, Action.feederClose,
   Action.readerTake, Action.readerTake, Action.readerExit,
   Action.sentinelClose, Action.procExit]

/-- A returning schedule for `cfgTwo` on `[jobA, jobB]` with `clientAB`. -/
def schedTwo : List Action :=
  [Action.feederPush, Action.feederPush, Action.feederClose,
   Action.readerTake, Action.readerTake,
   Action.readerSend [] rA [rB], Action.readerSend [] rB [],
   Action.readerExit, Action.readerExit, Action.sentinelClose,
   Action.procTake, Action.procTake, Action.procExit]

/-- A returning schedule for `cfgZero` (no fetch workers ever spawn). -/
def schedZero : List Action := [Action.sentinelClose, Action.procExit]

/-- Final state of the `schedOk` run (both jobs fetched and accepted). -/
def sOk : PipeState :=
  { feeder := []
    jobsQ := []
    jobsClosed := true
    idleR := 0
    pushing := []
    doneR := 1
    resultsQ := []
    resultsClosed := true
    idleW := 0
    doneW := 1
    transferred := 2
    failed := 0
    fetchCalls := 2
    procCalls := 2
    processedLog := [rA, rB]
    closeCount := 1 }

/-- Final state of the `schedFail` run (every fetch failed). -/
def sFail : PipeState :=
  { feeder := []
    jobsQ := []
    jobsClosed := true
    idleR := 0
    pushing := []
    doneR := 1
    resultsQ := []
    resultsClosed := true
    idleW := 0
    doneW := 1
    transferred := 0
    failed := 2
    fetchCalls := 2
    procCalls := 0
    processedLog := []
    closeCount := 1 }

/-- Final state of the `schedZero` run (nothing ever happened). -/
def sZero : PipeState :=
  { feeder := [jobA]
    jobsQ := []
    jobsClosed := false
    idleR := 0
    pushing := []
    doneR := 0
    resultsQ := []
    resultsClosed := true
    idleW := 0
    doneW := 1
    transferred := 0
    failed := 0
    fetchCalls := 0
    procCalls := 0
    processedLog := []
    closeCount := 1 }

end SftpGo

namespace SftpGo

/-- Claim C2 (counterexample to "the entry point rejects nonpositive pool
sizes"): `TransferFiles` performs no validation whatsoever.  With
`SFTPReaders = 0` and a non-empty job list it starts, silently processes
nothing — the capability and the processing function are never invoked —
and returns `(0, 0)`; its Go signature has no error return through which
a rejection could even be reported. -/
theorem transferFiles_accepts_zero_readers :
    cfgZero.TransferFiles clientAB [jobA] pfOk schedZero = some (0, 0) ∧
    Option.map PipeState.fetchCalls
      (pipeExec cfgZero clientAB [jobA] pfOk schedZero) = some 0 ∧
    Option.map PipeState.procCalls
      (pipeExec cfgZero clientAB [jobA] pfOk schedZero) = some 0 := by
  refine ⟨by decide, by decide, by decide⟩

/-- Witness for C1 at a concrete run: two jobs, both succeed, counters
`(2, 0)` partition the job list. -/
theorem counts_partition_jobs_witness :
    2 + 0 = ([jobA, jobB] : List FileJob).length := by
  exact counts_partition_jobs cfgOne clientAB [jobA, jobB] pfOk schedOk 2 0
    (by decide) (by decide) (by decide)

/-- Witness for C3 at a concrete run: both opens fail, `(0, 2)` returned,
processing function never invoked. -/
theorem unreachable_capability_counts_witness :
    sFail.failed = ([jobA, jobB] : List FileJob).length ∧
    sFail.transferred = 0 ∧ sFail.procCalls = 0 ∧
    cfgOne.TransferFiles clientNone [jobA, jobB] pfOk schedFail =
      some (0, ([jobA, jobB] : List FileJob).length) := by
  exact unreachable_capability_counts cfgOne clientNone [jobA, jobB] pfOk
    schedFail sFail (by decide) (by decide)
    (fun p => ⟨"file not found", rfl⟩) (by decide) (by decide)

/-- Witness for C4 at a concrete run: both fetches succeed and the
processing function accepts everything, so `(2, 0)` is returned. -/
theorem all_success_counts_witness :
    2 = ([jobA, jobB] : List FileJob).length ∧ 0 = 0 := by
  exact all_success_counts cfgOne clientAB [jobA, jobB] pfOk schedOk 2 0
    (by decide) (by decide) (by decide) (fun r => rfl) (by decide)

/-- Witness for C5 at a concrete run: both fetches succeed and the
processing function rejects everything, so `(0, 2)` is returned. -/
theorem all_process_fail_counts_witness :
    0 = 0 ∧ 2 = ([jobA, jobB] : List FileJob).length := by
  exact all_process_fail_counts cfgOne clientAB [jobA, jobB] pfFail schedOk 0 2
    (by decide) (by decide) (by decide) (fun r => ⟨"bad", rfl⟩) (by decide)

/-- Witness for C6 at two concrete runs of the same job set under the
configurations `(1,1,1)` and `(2,1,2)`: both return `(2, 0)`. -/
theorem counts_config_independent_witness : 2 = 2 ∧ 0 = 0 := by
  exact counts_config_independent cfgOne cfgTwo clientAB [jobA, jobB] pfOk
    schedOk schedTwo 2 0 2 0
    (by decide) (by decide) (by decide) (by decide) (by decide) (by decide)
    (by decide) (by decide)

/-- Witness for C8 at a concrete run: the first processed result carries
`jobA`'s identity and the capability's bytes for `jobA`'s path. -/
theorem result_integrity_witness : WFRes clientAB [jobA, jobB] rA := by
  exact result_integrity cfgOne clientAB [jobA, jobB] pfOk schedOk sOk rA
    (by decide) (by decide)

/-- Witness for C9 at a concrete run reaching its returned state. -/
theorem close_once_and_no_leak_witness :
    sOk.closeCount ≤ 1 ∧
    (sOk.resultsClosed = true → sOk.doneR = cfgOne.SFTPReaders.toNat) ∧
    (sOk.doneW = cfgOne.Workers.toNat →
      sOk.closeCount = 1 ∧ sOk.feeder = [] ∧ sOk.jobsClosed = true ∧
      sOk.idleR = 0 ∧ sOk.pushing = [] ∧ sOk.doneR = cfgOne.SFTPReaders.toNat ∧
      sOk.resultsClosed = true ∧ sOk.resultsQ = [] ∧ sOk.idleW = 0) := by
  exact close_once_and_no_leak cfgOne clientAB [jobA, jobB] pfOk schedOk sOk
    (by decide) (by decide) (by decide)

/-- Witness for C10 at a concrete run with zero fetch workers. -/
theorem zero_readers_returns_zero_witness :
    sZero.transferred = 0 ∧ sZero.failed = 0 ∧ sZero.fetchCalls = 0 ∧
    sZero.procCalls = 0 ∧
    cfgZero.TransferFiles clientAB [jobA] pfOk schedZero = some (0, 0) ∧
    sZero.transferred + sZero.failed ≠ ([jobA] : List FileJob).length ∧
    (1 ≤ cfgZero.Workers → sZero.resultsClosed = true) := by
  exact zero_readers_returns_zero cfgZero clientAB [jobA] pfOk schedZero sZero
    (by decide) (by decide) (by decide) (by decide)

end SftpGo
